import Mathlib

/-!
Verification development for the `mcp-oss-metrics` project risk analyzer.

The Python source (`app.py`) is shallowly embedded below:
* string heuristics (`_classify_email_domain`, `_is_bot_account`) become pure
  Lean functions over `String`;
* the contributor ledger (a Python dict from login to a mutable record) becomes
  an insertion-ordered association list with `upsert`/`adjust` operations;
* timestamps are represented by their elapsed-day count relative to "now"
  (the only quantity the aggregation ever derives from a date), with `none`
  standing for a missing or unparseable date string;
* Python floats are modelled by exact rationals;
* code that can raise (`get_quarter`'s division by the quarter length) returns
  `Except Unit`.
-/

/-! ### String helpers -/

/-- `leadsWith n h` is true when the char list `n` is an initial segment of `h`
(embeds Python's startswith-style comparison used to search substrings). -/
def leadsWith : List Char → List Char → Bool
  | [], _ => true
  | _ :: _, [] => false
  | a :: as, b :: bs => a = b && leadsWith as bs

/-- `containsSub n h`: the char list `n` occurs contiguously inside `h`
(embeds Python's `n in h` on strings). -/
def containsSub (n : List Char) : List Char → Bool
  | [] => leadsWith n []
  | c :: t => leadsWith n (c :: t) || containsSub n t

/-- `endsWithStr s t`: the string `s` ends with `t`
(embeds Python's `s.endswith(t)`). -/
def endsWithStr (s t : String) : Bool :=
  leadsWith t.data.reverse s.data.reverse

/-- ASCII lowercasing of one character (Python's `str.lower` restricted to the
ASCII range, which covers every domain and keyword the analyzer compares). -/
def lowerChar (c : Char) : Char :=
  if c.toNat ≥ 65 && c.toNat ≤ 90 then Char.ofNat (c.toNat + 32) else c

/-- ASCII lowercasing of a string (embeds Python's `s.lower()`). -/
def strLower (s : String) : String :=
  String.mk (s.data.map lowerChar)

/-- Substring after the last `'@'` of `email`
(embeds Python's `email.split("@")[-1]`: the final split segment is exactly
the text after the last separator). -/
def domainAfterAt (email : String) : String :=
  String.mk ((email.data.reverse.takeWhile (fun c => c ≠ '@')).reverse)

/-! ### Identity Classifier (`_classify_email_domain`, `_is_bot_account`) -/

/-- The curated company-domain set from `ProjectRiskAnalyzer.__init__`. -/
def company_domains : List String :=
  ["microsoft.com", "google.com", "facebook.com", "meta.com", "apple.com",
   "amazon.com", "netflix.com", "uber.com", "airbnb.com", "twitter.com",
   "linkedin.com", "github.com", "gitlab.com", "atlassian.com", "salesforce.com",
   "oracle.com", "ibm.com", "intel.com", "nvidia.com", "amd.com", "cisco.com",
   "vmware.com", "redhat.com", "canonical.com", "mozilla.org", "spotify.com",
   "dropbox.com", "slack.com", "zoom.us", "docker.com", "hashicorp.com"]

/-- The curated personal-domain set from `ProjectRiskAnalyzer.__init__`. -/
def personal_domains : List String :=
  ["gmail.com", "yahoo.com", "hotmail.com", "outlook.com", "live.com",
   "icloud.com", "protonmail.com", "mail.com", "yandex.com", "qq.com",
   "163.com", "126.com", "sina.com", "sohu.com", "naver.com", "daum.net",
   "web.de", "gmx.de", "t-online.de", "free.fr", "laposte.net"]

/-- The academic domain-suffix set from `ProjectRiskAnalyzer.__init__`. -/
def academic_tlds : List String :=
  [".edu", ".ac.uk", ".edu.au", ".ac.jp", ".edu.cn"]

/-- Embedding of `_classify_email_domain` (app.py lines 64-89), parameterized by
the caller-supplied custom-domain list stored on the analyzer instance. -/
def classify_email_domain (custom : List String) (email : String) : String :=
  if email = "" || !(email.data.contains '@') then "no email available"
  else
    let domain := strLower (domainAfterAt email)
    if custom.contains domain then "custom"
    else if company_domains.contains domain then "company"
    else if academic_tlds.any (fun tld => endsWithStr domain tld) then "academic"
    else if personal_domains.contains domain then "personal"
    else "personal"

/-- The bot keyword list from `_is_bot_account`. -/
def bot_indicators : List String :=
  ["bot", "automated", "auto", "ci", "cd", "deploy", "build",
   "github-actions", "dependabot", "renovate", "greenkeeper",
   "codecov", "codeclimate", "travis", "appveyor", "jenkins",
   "drone", "circleci", "gitlab-ci", "azure-devops", "teamcity",
   "service", "automation", "pipeline", "workflow", "action"]

/-- The bot email-pattern list from `_is_bot_account`. -/
def bot_email_patterns : List String :=
  ["noreply", "no-reply", "automation", "bot", "ci", "cd",
   "github-actions", "dependabot", "renovate"]

/-- Embedding of `_is_bot_account` (app.py lines 91-133). -/
def is_bot_account (login name email : String) : Bool :=
  if login = "" then false
  else
    let login_lower := strLower login
    let name_lower := if name = "" then "" else strLower name
    if bot_indicators.any (fun i => containsSub i.data login_lower.data) then true
    else if bot_indicators.any (fun i => containsSub i.data name_lower.data) then true
    else if email ≠ "" &&
        bot_email_patterns.any (fun p => containsSub p.data (strLower email).data) then true
    else if endsWithStr login_lower "[bot]" || endsWithStr name_lower "[bot]" then true
    else false

example : classify_email_domain [] "dev@modprog.de" = "personal" := by decide
example : classify_email_domain [] "a@Google.COM" = "company" := by decide
example : classify_email_domain [] "x@cs.ox.ac.uk" = "academic" := by decide
example : classify_email_domain ["google.com"] "a@google.com" = "custom" := by decide
example : classify_email_domain [] "nodomain" = "no email available" := by decide
example : is_bot_account "dependabot" "" "" = true := by decide
example : is_bot_account "alice" "Alice" "alice@gmail.com" = false := by decide
example : is_bot_account "" "github-actions" "" = false := by decide
example : is_bot_account "someone[BOT]" "" "" = true := by decide

/-! ### Data model for `_analyze_contributor_concentration`

Timestamps are represented by elapsed days relative to "now" (`(now − date).days`
is the only value the aggregation derives from a date); `none` stands for a
missing or unparseable date string. -/

/-- One window-filtered commit record, restricted to the fields the aggregation
reads: `author.login`, `commit.author.name`, `commit.author.email`,
`commit.author.date`. `none` login/name model missing keys (Python defaults
`"unknown"` / `"Unknown"`). -/
structure CommitRec where
  login : Option String
  name : Option String
  email : String
  daysAgo : Option Int
deriving DecidableEq, Repr

/-- One nested review on a PR record: `user.login` plus the review's own
`submitted_at` timestamp, which the aggregation never reads. -/
structure ReviewRec where
  login : Option String
  submittedDaysAgo : Option Int
deriving DecidableEq, Repr

/-- One window-filtered issue/PR record, restricted to the fields the
aggregation reads: `user.login`, the `pull_request` flag, `created_at`,
nested `reviews`, the `comments` count and the `participants` list. -/
structure IssueRec where
  login : Option String
  isPR : Bool
  createdDaysAgo : Option Int
  reviews : List ReviewRec
  comments : Nat
  participants : List String
deriving DecidableEq, Repr

/-- One contributor ledger entry (the per-login dict built by
`_analyze_contributor_concentration`). -/
structure Contributor where
  name : String
  email : String
  email_type : String
  commits : Nat
  issues_created : Nat
  prs_created : Nat
  reviews_given : Nat
  comments_made : Nat
  total_activity : Nat
  quarterly_activity : List Nat
  activity_trend : String
deriving DecidableEq, Repr

/-- The contributor ledger: an insertion-ordered association map from login to
entry (Python dicts preserve insertion order). -/
abbrev Ledger := List (String × Contributor)

/-- Dict lookup `active_contributors.get(login)`. -/
def getEntry (L : Ledger) (k : String) : Option Contributor :=
  match L with
  | [] => none
  | (k₁, c) :: t => if k₁ = k then some c else getEntry t k

/-- Create-or-fetch-then-mutate: if `k` is present apply `f` to its entry,
otherwise append `f d` (the Python `if k not in dict: dict[k] = d` followed by
a mutation of `dict[k]`). -/
def upsert (L : Ledger) (k : String) (d : Contributor) (f : Contributor → Contributor) :
    Ledger :=
  match L with
  | [] => [(k, f d)]
  | (k₁, c) :: t => if k₁ = k then (k₁, f c) :: t else (k₁, c) :: upsert t k d f

/-- Mutate the entry at `k` when present, leave the ledger unchanged otherwise
(the Python `dict[k].field += n` on a key known to exist). -/
def adjust (L : Ledger) (k : String) (f : Contributor → Contributor) : Ledger :=
  match L with
  | [] => []
  | (k₁, c) :: t => if k₁ = k then (k₁, f c) :: t else (k₁, c) :: adjust t k f

/-- Increment slot `i` of a quarterly-activity vector
(`quarterly_activity[quarter] += 1`). -/
def bumpQuarter (qa : List Nat) (i : Nat) : List Nat :=
  qa.set i (qa.getD i 0 + 1)

/-! ### Quarter bucketing (`get_quarter`, app.py lines 792-808) -/

/-- Embedding of `get_quarter`: given the analysis window length in days and a
timestamp's elapsed-day count (`none` = missing or unparseable date string,
which the inner `try` turns into `None`), return the quarter bucket.
`Except.error ()` models the uncaught `ZeroDivisionError` raised by
`days_ago // quarter_length` when `quarter_length = window // 4` is zero. -/
def get_quarter (window : Nat) (daysAgo : Option Int) : Except Unit (Option Nat) :=
  match daysAgo with
  | none => Except.ok none
  | some d =>
    if d < 0 || d > (window : Int) then Except.ok none
    else if window / 4 = 0 then Except.error ()
    else Except.ok (some (3 - min 3 (d.toNat / (window / 4))))

example : get_quarter 365 (some 0) = Except.ok (some 3) := rfl
example : get_quarter 365 (some 364) = Except.ok (some 0) := rfl
example : get_quarter 365 (some 366) = Except.ok none := rfl
example : get_quarter 365 (some (-1)) = Except.ok none := rfl
example : get_quarter 365 none = Except.ok none := rfl
example : get_quarter 1 (some 0) = Except.error () := rfl
example : get_quarter 3 (some 2) = Except.error () := rfl
example : get_quarter 4 (some 0) = Except.ok (some 3) := rfl

/-! ### Activity aggregation (`_analyze_contributor_concentration`, loops at
app.py lines 810-944) -/

/-- Commit author login resolution (app.py lines 820-825): prefer the account
login, else the raw committer name, else the literal `"unknown"`. -/
def resolveCommitLogin (c : CommitRec) : String :=
  let l := c.login.getD "unknown"
  let n := c.name.getD "Unknown"
  if l = "unknown" && n ≠ "Unknown" then n else l

/-- The fresh ledger entry built for a commit author (app.py lines 834-845). -/
def commitDefault (custom : List String) (name email : String) : Contributor :=
  { name := name, email := email,
    email_type := classify_email_domain custom email,
    commits := 0, issues_created := 0, prs_created := 0,
    reviews_given := 0, comments_made := 0, total_activity := 0,
    quarterly_activity := [0, 0, 0, 0], activity_trend := "" }

/-- The fresh ledger entry built for an issue/PR author or a reviewer
(app.py lines 874-885 and 916-927): login reused as name, no email,
email category `"N/A"`. -/
def blankEntry (login : String) : Contributor :=
  { name := login, email := "", email_type := "N/A",
    commits := 0, issues_created := 0, prs_created := 0,
    reviews_given := 0, comments_made := 0, total_activity := 0,
    quarterly_activity := [0, 0, 0, 0], activity_trend := "" }

/-- Loop 1 body (app.py lines 811-853): fold one commit into the ledger.
Bot authors are skipped; otherwise the entry is created-or-fetched, `commits`
is incremented and the commit's own quarter slot is bumped. -/
def processCommit (custom : List String) (window : Nat) (L : Ledger) (c : CommitRec) :
    Except Unit Ledger :=
  let login := resolveCommitLogin c
  let name := c.name.getD "Unknown"
  if is_bot_account login name c.email then Except.ok L
  else
    let L1 := upsert L login (commitDefault custom name c.email)
      (fun e => { e with commits := e.commits + 1 })
    match get_quarter window c.daysAgo with
    | Except.error e => Except.error e
    | Except.ok none => Except.ok L1
    | Except.ok (some q) => Except.ok (adjust L1 login
        (fun e => { e with quarterly_activity := bumpQuarter e.quarterly_activity q }))

/-- Nested review-loop body (app.py lines 902-931): fold one review into the
ledger. `author` is the enclosing record's author login and `q` the quarter of
the enclosing record's creation date — the review's own timestamp is never
consulted. -/
def processReview (L : Ledger) (author : String) (q : Option Nat) (r : ReviewRec) :
    Ledger :=
  let rl := r.login.getD "unknown"
  if rl = "unknown" then L
  else if is_bot_account rl "" "" then L
  else if rl = author then L
  else
    let L1 := upsert L rl (blankEntry rl)
      (fun e => { e with reviews_given := e.reviews_given + 1 })
    match q with
    | none => L1
    | some j => adjust L1 rl
        (fun e => { e with quarterly_activity := bumpQuarter e.quarterly_activity j })

/-- The non-bot participants of an issue/PR (app.py line 939): truthy strings
that are not bot accounts. -/
def human_participants (parts : List String) : List String :=
  parts.filter (fun p => p ≠ "" && !(is_bot_account p "" ""))

/-- Comment-distribution step (app.py lines 933-944): when the record has a
positive comment count and a nonempty participant list, each *already present*
human participant's `comments_made` grows by
`max 1 (comments / number of humans)`; absent participants are not created. -/
def distributeComments (L : Ledger) (commentsCount : Nat) (parts : List String) :
    Ledger :=
  if commentsCount > 0 && !parts.isEmpty then
    let humans := human_participants parts
    if !humans.isEmpty then
      let per := max 1 (commentsCount / humans.length)
      humans.foldl
        (fun Lacc p =>
          if (getEntry Lacc p).isSome then
            adjust Lacc p (fun e => { e with comments_made := e.comments_made + per })
          else Lacc)
        L
    else L
  else L

/-- Loop 2 body (app.py lines 856-944): fold one issue/PR record into the
ledger. Unknown or bot authors cause the whole record — reviews and comments
included — to be skipped (`continue`). -/
def processIssue (window : Nat) (L : Ledger) (i : IssueRec) :
    Except Unit Ledger :=
  let author := i.login.getD "unknown"
  if author = "unknown" then Except.ok L
  else if is_bot_account author "" "" then Except.ok L
  else
    let L1 := upsert L author (blankEntry author) id
    match get_quarter window i.createdDaysAgo with
    | Except.error e => Except.error e
    | Except.ok q =>
      let L2 :=
        if i.isPR then
          adjust L1 author (fun e => { e with prs_created := e.prs_created + 1 })
        else
          adjust L1 author (fun e => { e with issues_created := e.issues_created + 1 })
      let L3 :=
        match q with
        | none => L2
        | some j => adjust L2 author
            (fun e => { e with quarterly_activity := bumpQuarter e.quarterly_activity j })
      let L4 := i.reviews.foldl (fun Lacc r => processReview Lacc author q r) L3
      Except.ok (distributeComments L4 i.comments i.participants)

/-- Trend computation over a quarterly-activity vector (app.py lines 958-976).
Python's float ratio is modelled exactly by a rational; the `float('inf')`
fallback is unreachable because the final branch implies `older > 0`. -/
def trend_from (qa : List Nat) : String :=
  let recent := qa.getD 2 0 + qa.getD 3 0
  let older := qa.getD 0 0 + qa.getD 1 0
  if older = 0 ∧ recent > 0 then "increasing"
  else if recent = 0 ∧ older > 0 then "decreasing"
  else if older = 0 ∧ recent = 0 then "stable"
  else
    let ratio : ℚ := (recent : ℚ) / (older : ℚ)
    if ratio > 1.5 then "increasing"
    else if ratio < 0.67 then "decreasing"
    else "stable"

/-- Finalization pass (app.py lines 947-980): recompute `total_activity` as the
sum of the five counters and attach the trend label (`insufficient_data` below
10 total activities). -/
def finalizeEntry (c : Contributor) : Contributor :=
  let total := c.commits + c.issues_created + c.prs_created +
    c.reviews_given + c.comments_made
  { c with total_activity := total,
           activity_trend :=
             if total ≥ 10 then trend_from c.quarterly_activity
             else "insufficient_data" }

/-- Sequential fold of a record list into the ledger, propagating a raised
exception (the Python `for` loops over `recent_commits` / `recent_issues`). -/
def foldE {α : Type} (f : Ledger → α → Except Unit Ledger) :
    Ledger → List α → Except Unit Ledger
  | L, [] => Except.ok L
  | L, a :: t =>
    match f L a with
    | Except.error e => Except.error e
    | Except.ok L1 => foldE f L1 t

/-- The whole aggregation pass of `_analyze_contributor_concentration`
(app.py lines 810-980): fold all window-filtered commits, then all
window-filtered issue/PR records, into an initially empty ledger, then
finalize every entry. -/
def aggregate_contributors (custom : List String) (window : Nat)
    (commits : List CommitRec) (issues : List IssueRec) : Except Unit Ledger :=
  match foldE (processCommit custom window) [] commits with
  | Except.error e => Except.error e
  | Except.ok L1 =>
    match foldE (processIssue window) L1 issues with
    | Except.error e => Except.error e
    | Except.ok L2 => Except.ok (L2.map (fun p => (p.1, finalizeEntry p.2)))


/-! ### Concentration Risk Scorer (app.py lines 995-1048) -/

/-- `sum(c[1]["total_activity"] for c in sorted_contributors)` as an exact
rational (app.py line 1007). -/
def total_activity_sum (l : List (String × Contributor)) : ℚ :=
  (l.map (fun p => ((p.2.total_activity : ℚ)))).sum

/-- `top_contributor_percentage` (app.py line 1010): the head of the sorted
list is the top contributor; zero when the total is not positive. -/
def top_contributor_percentage (l : List (String × Contributor)) : ℚ :=
  match l with
  | [] => 0
  | top :: _ =>
    if total_activity_sum l > 0 then
      (top.2.total_activity : ℚ) / total_activity_sum l * 100
    else 0

/-- `concentration_risk = min(1.0, max(0.0, (top_pct - 30) / 40))`
(app.py line 1013). -/
def concentration_risk (l : List (String × Contributor)) : ℚ :=
  min 1 (max 0 ((top_contributor_percentage l - 30) / 40))

/-- Cumulative share of the first `k` entries of the sorted ledger
(app.py lines 1046-1047). -/
def top_k_percentage (k : Nat) (l : List (String × Contributor)) : ℚ :=
  if total_activity_sum l > 0 then
    total_activity_sum (l.take k) / total_activity_sum l * 100
  else 0

/-- The early-return dict built when the sorted ledger is empty
(app.py lines 995-1004), field for field. -/
structure EmptyLedgerResult where
  contributor_concentration_risk : ℚ
  total_active_contributors : Nat
  recent_commits_analyzed : Nat
  recent_issues_analyzed : Nat
  active_contributors : List String
  top_contributor_percentage : ℚ
  activity_distribution : List (String × ℚ)
deriving DecidableEq, Repr

/-- `empty_ledger_result` instantiates the zero-contributor early return of
`_analyze_contributor_concentration` (app.py lines 995-1004). -/
def empty_ledger_result (nCommits nIssues : Nat) : EmptyLedgerResult :=
  { contributor_concentration_risk := 1,
    total_active_contributors := 0,
    recent_commits_analyzed := nCommits,
    recent_issues_analyzed := nIssues,
    active_contributors := [],
    top_contributor_percentage := 100,
    activity_distribution := [] }

/-- The scorer's outcome: the empty-ledger early return, or the computed risk
with the top-1/top-3/top-5 distribution summary of the nonempty branch. -/
inductive ConcOutcome where
  | emptyLedger (r : EmptyLedgerResult)
  | scored (risk : ℚ) (top1 top3 top5 : ℚ)
deriving DecidableEq, Repr

/-- The scorer stage of `_analyze_contributor_concentration` over the
activity-sorted ledger (app.py lines 995-1048). -/
def concentration_outcome (sorted : List (String × Contributor))
    (nCommits nIssues : Nat) : ConcOutcome :=
  match sorted with
  | [] => ConcOutcome.emptyLedger (empty_ledger_result nCommits nIssues)
  | _ :: _ =>
    ConcOutcome.scored (concentration_risk sorted)
      (top_contributor_percentage sorted)
      (top_k_percentage 3 sorted) (top_k_percentage 5 sorted)

/-! ### Recommendation Synthesizer (`_generate_recommendations`,
app.py lines 1120-1172)

Each appended recommendation string is modelled by a dedicated constructor;
the security message keeps the average it interpolates. -/

/-- The distinct recommendation messages `_generate_recommendations` can
append, in source order. -/
inductive RecMsg where
  | abandonment_risk
  | capacity_risk
  | security_risk (avg : ℚ)
  | recruit_maintainers
  | monitor_diversity
  | critical_few_contributors
  | low_contributor_count
  | knowledge_sharing
  | healthy_distribution
  | unable_to_analyze
deriving DecidableEq, Repr

/-- The slice of one contributor dict that `_generate_recommendations` reads
from `contributors[0]`. -/
structure ContribView where
  email_type : String
  activity_trend : String
deriving DecidableEq, Repr

/-- The risk-factor bundle fields `_generate_recommendations` reads
(app.py lines 1125-1129 and 1147, 1164-1165). -/
structure RecInput where
  total_active_contributors : Nat
  contributor_concentration_risk : ℚ
  avg_pr_close_time_days : Option ℚ
  active_contributors : List ContribView
  top_3_contributors_percentage : ℚ
deriving DecidableEq, Repr

/-- Step 1 (app.py lines 1131-1144): abandonment/capacity messages, gated on
high concentration, at most 3 contributors, and the top contributor's email
category being one of `personal`, `N/A`, `unknown`. -/
def rec_step1 (x : RecInput) : List RecMsg :=
  if x.contributor_concentration_risk > 0.5 && x.total_active_contributors ≤ 3 then
    match x.active_contributors with
    | [] => []
    | top :: _ =>
      if top.email_type = "personal" || top.email_type = "N/A" ||
          top.email_type = "unknown" then
        if top.activity_trend = "decreasing" then [RecMsg.abandonment_risk]
        else if top.activity_trend = "stable" || top.activity_trend = "increasing" then
          [RecMsg.capacity_risk]
        else []
      else []
  else []

/-- Step 2 (app.py lines 1147-1149): security message when the average PR close
time exceeds 5 days. -/
def rec_step2 (x : RecInput) : List RecMsg :=
  match x.avg_pr_close_time_days with
  | none => []
  | some t => if t > 5 then [RecMsg.security_risk t] else []

/-- Step 3 (app.py lines 1152-1155): recruit vs monitor, mutually exclusive. -/
def rec_step3 (x : RecInput) : List RecMsg :=
  if x.contributor_concentration_risk > 0.7 then [RecMsg.recruit_maintainers]
  else if x.contributor_concentration_risk > 0.4 then [RecMsg.monitor_diversity]
  else []

/-- Step 4 (app.py lines 1158-1161): contributor-count messages, mutually
exclusive. -/
def rec_step4 (x : RecInput) : List RecMsg :=
  if x.total_active_contributors < 3 then [RecMsg.critical_few_contributors]
  else if x.total_active_contributors < 5 then [RecMsg.low_contributor_count]
  else []

/-- Step 5 (app.py lines 1164-1167): knowledge-sharing message when the top-3
share exceeds 80%. -/
def rec_step5 (x : RecInput) : List RecMsg :=
  if x.top_3_contributors_percentage > 80 then [RecMsg.knowledge_sharing] else []

/-- Embedding of `_generate_recommendations` (app.py lines 1120-1172): the five
appends in order, then the healthy-distribution fallback when nothing fired. -/
def generate_recommendations (x : RecInput) : List RecMsg :=
  let r := rec_step1 x ++ rec_step2 x ++ rec_step3 x ++ rec_step4 x ++ rec_step5 x
  if r.isEmpty then [RecMsg.healthy_distribution] else r

/-! ### Batch analysis (`analyze_repositories`, app.py lines 446-465) -/

/-- The risk-factor mapping of a `RiskAnalysis`: either the error entry built
on failure or the normal factors of a completed analysis. -/
inductive RiskFactors where
  | failure (msg : String)
  | normal (o : ConcOutcome)
deriving DecidableEq, Repr

/-- The `RiskAnalysis` dataclass (app.py lines 22-29), minus the wall-clock
`analysis_date`. -/
structure RiskAnalysis where
  repository : String
  overall_risk_score : ℚ
  risk_factors : RiskFactors
  recommendations : List RecMsg
deriving DecidableEq, Repr

/-- The error report built inside the `except` branch of
`analyze_repositories` (app.py lines 457-463). -/
def error_analysis (url msg : String) : RiskAnalysis :=
  { repository := url, overall_risk_score := 1,
    risk_factors := RiskFactors.failure msg,
    recommendations := [RecMsg.unable_to_analyze] }

/-- Embedding of `analyze_repositories` (app.py lines 446-465), parameterized
by the per-repository analysis `single` (the awaited
`analyze_single_repository`, whose raised exceptions are its `error` results). -/
def analyze_repositories (single : String → Except String RiskAnalysis)
    (urls : List String) : List RiskAnalysis :=
  urls.map (fun u =>
    match single u with
    | Except.ok a => a
    | Except.error e => error_analysis u e)

/-! ### Ledger lemmas -/

theorem getEntry_upsert (L : Ledger) (k : String) (d : Contributor)
    (f : Contributor → Contributor) (k₂ : String) :
    getEntry (upsert L k d f) k₂ =
      if k₂ = k then some (f ((getEntry L k).getD d)) else getEntry L k₂ := by
  induction L with
  | nil =>
    by_cases h : k₂ = k
    · subst h; simp [upsert, getEntry]
    · have h2 : ¬k = k₂ := fun hh => h hh.symm
      simp [upsert, getEntry, h, h2]
  | cons p t ih =>
    obtain ⟨k₁, c⟩ := p
    by_cases h1 : k₁ = k
    · subst h1
      by_cases h2 : k₂ = k₁
      · subst h2; simp [upsert, getEntry]
      · have h3 : ¬k₁ = k₂ := fun hh => h2 hh.symm
        simp [upsert, getEntry, h2, h3]
    · by_cases h2 : k₁ = k₂
      · subst h2
        simp [upsert, getEntry, h1, Ne.symm h1]
      · simp [upsert, getEntry, h1, h2, ih]

theorem getEntry_adjust (L : Ledger) (k : String) (f : Contributor → Contributor)
    (k₂ : String) :
    getEntry (adjust L k f) k₂ =
      if k₂ = k then (getEntry L k).map f else getEntry L k₂ := by
  induction L with
  | nil => simp [adjust, getEntry]
  | cons p t ih =>
    obtain ⟨k₁, c⟩ := p
    by_cases h1 : k₁ = k
    · subst h1
      by_cases h2 : k₂ = k₁
      · subst h2; simp [adjust, getEntry]
      · have h3 : ¬k₁ = k₂ := fun hh => h2 hh.symm
        simp [adjust, getEntry, h2, h3]
    · by_cases h2 : k₁ = k₂
      · subst h2
        simp [adjust, getEntry, h1, Ne.symm h1]
      · simp [adjust, getEntry, h1, h2, ih]

theorem getEntry_mapSnd (g : Contributor → Contributor) (L : Ledger) (k : String) :
    getEntry (L.map (fun p => (p.1, g p.2))) k = (getEntry L k).map g := by
  induction L with
  | nil => simp [getEntry]
  | cons p t ih =>
    obtain ⟨k₁, c⟩ := p
    by_cases h : k₁ = k
    · subst h; simp [getEntry]
    · simp [getEntry, h, ih]

theorem isSome_upsert (L : Ledger) (k : String) (d : Contributor)
    (f : Contributor → Contributor) (k₂ : String) :
    (getEntry (upsert L k d f) k₂).isSome = true ↔
      (getEntry L k₂).isSome = true ∨ k₂ = k := by
  rw [getEntry_upsert]
  by_cases h : k₂ = k <;> simp [h]

theorem isSome_adjust (L : Ledger) (k : String) (f : Contributor → Contributor)
    (k₂ : String) :
    (getEntry (adjust L k f) k₂).isSome = (getEntry L k₂).isSome := by
  rw [getEntry_adjust]
  by_cases h : k₂ = k <;> simp [h]

theorem isSome_foldCondAdjust (g : Contributor → Contributor) :
    ∀ (hum : List String) (L : Ledger) (k : String),
    (getEntry (hum.foldl
      (fun Lacc p => if (getEntry Lacc p).isSome then adjust Lacc p g else Lacc) L)
      k).isSome = (getEntry L k).isSome := by
  intro hum
  induction hum with
  | nil => intro L k; rfl
  | cons q t ih =>
    intro L k
    simp only [List.foldl_cons]
    rw [ih]
    split
    · rw [isSome_adjust]
    · rfl

theorem isSome_distributeComments (L : Ledger) (cc : Nat) (ps : List String)
    (k : String) :
    (getEntry (distributeComments L cc ps) k).isSome = (getEntry L k).isSome := by
  unfold distributeComments
  split
  · dsimp only
    split
    · exact isSome_foldCondAdjust _ _ L k
    · rfl
  · rfl

/-! ### Expected ledger key sets -/

/-- The login a commit contributes to the ledger: its resolved author login
unless the bot filter rejects it. -/
def commitContrib (c : CommitRec) : List String :=
  let l := resolveCommitLogin c
  if is_bot_account l (c.name.getD "Unknown") c.email then [] else [l]

/-- The login a nested review contributes: the reviewer login when it is known,
non-bot, and differs from the enclosing record's author. -/
def reviewContrib (author : String) (r : ReviewRec) : Option String :=
  let rl := r.login.getD "unknown"
  if rl = "unknown" then none
  else if is_bot_account rl "" "" then none
  else if rl = author then none
  else some rl

/-- The logins an issue/PR record contributes: nothing when its author is
unknown or a bot (the record is skipped whole), otherwise the author plus its
qualifying reviewers. -/
def issueContrib (i : IssueRec) : List String :=
  let a := i.login.getD "unknown"
  if a = "unknown" then []
  else if is_bot_account a "" "" then []
  else a :: i.reviews.filterMap (reviewContrib a)

/-- The ledger key set the aggregation actually produces, described
record-by-record. -/
def expectedLogins (commits : List CommitRec) (issues : List IssueRec) :
    List String :=
  commits.flatMap commitContrib ++ issues.flatMap issueContrib

theorem isSome_processReview (L : Ledger) (a : String) (q : Option Nat)
    (r : ReviewRec) (k : String) :
    (getEntry (processReview L a q r) k).isSome = true ↔
      (getEntry L k).isSome = true ∨ reviewContrib a r = some k := by
  unfold processReview reviewContrib
  dsimp only
  split_ifs with h1 h2 h3
  · simp
  · simp
  · simp
  · cases q with
    | none => rw [isSome_upsert]; simp only [Option.some.injEq]; tauto
    | some j => rw [isSome_adjust, isSome_upsert]; simp only [Option.some.injEq]; tauto

theorem isSome_reviewFold (a : String) (q : Option Nat) :
    ∀ (rs : List ReviewRec) (L : Ledger) (k : String),
    (getEntry (rs.foldl (fun Lacc r => processReview Lacc a q r) L) k).isSome = true ↔
      (getEntry L k).isSome = true ∨ k ∈ rs.filterMap (reviewContrib a) := by
  intro rs
  induction rs with
  | nil => intro L k; simp
  | cons r t ih =>
    intro L k
    simp only [List.foldl_cons]
    rw [ih, isSome_processReview]
    cases hr : reviewContrib a r with
    | none => simp [List.filterMap_cons, hr]
    | some x =>
      simp only [List.filterMap_cons, hr, List.mem_cons, Option.some.injEq]
      constructor
      · rintro ((h | h) | h)
        · exact Or.inl h
        · exact Or.inr (Or.inl h.symm)
        · exact Or.inr (Or.inr h)
      · rintro (h | h | h)
        · exact Or.inl (Or.inl h)
        · exact Or.inl (Or.inr h.symm)
        · exact Or.inr h

theorem processCommit_ok_keys (custom : List String) (window : Nat) (L : Ledger)
    (c : CommitRec) (L₂ : Ledger)
    (h : processCommit custom window L c = Except.ok L₂) (k : String) :
    (getEntry L₂ k).isSome = true ↔
      (getEntry L k).isSome = true ∨ k ∈ commitContrib c := by
  unfold processCommit at h
  unfold commitContrib
  dsimp only at h ⊢
  split_ifs at h ⊢ with hb
  · cases h; simp
  · rcases hq : get_quarter window c.daysAgo with e | o
    · rw [hq] at h; cases h
    · rw [hq] at h
      cases o with
      | none =>
        cases h
        rw [isSome_upsert]; simp only [List.mem_singleton]
      | some j =>
        cases h
        rw [isSome_adjust, isSome_upsert]; simp only [List.mem_singleton]

theorem processIssue_ok_keys (window : Nat) (L : Ledger) (i : IssueRec)
    (L₂ : Ledger) (h : processIssue window L i = Except.ok L₂) (k : String) :
    (getEntry L₂ k).isSome = true ↔
      (getEntry L k).isSome = true ∨ k ∈ issueContrib i := by
  unfold processIssue at h
  unfold issueContrib
  dsimp only at h ⊢
  by_cases h1 : i.login.getD "unknown" = "unknown"
  · rw [if_pos h1] at h ⊢
    cases h; simp
  · rw [if_neg h1] at h ⊢
    by_cases h2 : is_bot_account (i.login.getD "unknown") "" "" = true
    · rw [if_pos h2] at h ⊢
      cases h; simp
    · rw [if_neg h2] at h ⊢
      rcases hq : get_quarter window i.createdDaysAgo with e | q
      · rw [hq] at h; cases h
      · rw [hq] at h
        dsimp only at h
        cases h
        rw [isSome_distributeComments, isSome_reviewFold]
        cases q with
        | none =>
          dsimp only
          split <;> rw [isSome_adjust, isSome_upsert] <;>
            simp only [List.mem_cons] <;> tauto
        | some j =>
          dsimp only
          split <;> rw [isSome_adjust, isSome_adjust, isSome_upsert] <;>
            simp only [List.mem_cons] <;> tauto

theorem foldE_keys {α : Type} (f : Ledger → α → Except Unit Ledger)
    (contrib : α → List String)
    (hstep : ∀ (L : Ledger) (a : α) (L₂ : Ledger), f L a = Except.ok L₂ →
      ∀ k, (getEntry L₂ k).isSome = true ↔
        (getEntry L k).isSome = true ∨ k ∈ contrib a) :
    ∀ (l : List α) (L L₂ : Ledger), foldE f L l = Except.ok L₂ →
      ∀ k, (getEntry L₂ k).isSome = true ↔
        (getEntry L k).isSome = true ∨ k ∈ l.flatMap contrib := by
  intro l
  induction l with
  | nil =>
    intro L L₂ h k
    cases h
    simp
  | cons a t ih =>
    intro L L₂ h k
    unfold foldE at h
    rcases ha : f L a with e | L₁
    · rw [ha] at h; cases h
    · rw [ha] at h
      rw [ih L₁ L₂ h k, hstep L a L₁ ha k]
      simp only [List.flatMap_cons, List.mem_append]
      tauto

theorem getEntry_aggregate (custom : List String) (window : Nat)
    (commits : List CommitRec) (issues : List IssueRec) (L : Ledger)
    (h : aggregate_contributors custom window commits issues = Except.ok L)
    (k : String) :
    (getEntry L k).isSome = true ↔ k ∈ expectedLogins commits issues := by
  unfold aggregate_contributors at h
  rcases h1 : foldE (processCommit custom window) [] commits with e | L₁
  · rw [h1] at h; cases h
  · rw [h1] at h
    dsimp only at h
    rcases h2 : foldE (processIssue window) L₁ issues with e | L₂
    · rw [h2] at h; cases h
    · rw [h2] at h
      dsimp only at h
      cases h
      rw [getEntry_mapSnd finalizeEntry L₂ k, Option.isSome_map']
      rw [foldE_keys (processIssue window) issueContrib
        (fun L a L₂ h => processIssue_ok_keys window L a L₂ h) issues L₁ L₂ h2 k]
      rw [foldE_keys (processCommit custom window) commitContrib
        (fun L a L₂ h => processCommit_ok_keys custom window L a L₂ h) commits [] L₁ h1 k]
      unfold expectedLogins
      simp [getEntry]

theorem aggregate_total_activity (custom : List String) (window : Nat)
    (commits : List CommitRec) (issues : List IssueRec) (L : Ledger)
    (h : aggregate_contributors custom window commits issues = Except.ok L) :
    ∀ p ∈ L, p.2.total_activity =
      p.2.commits + p.2.issues_created + p.2.prs_created +
      p.2.reviews_given + p.2.comments_made := by
  unfold aggregate_contributors at h
  rcases h1 : foldE (processCommit custom window) [] commits with e | L₁
  · rw [h1] at h; cases h
  · rw [h1] at h
    dsimp only at h
    rcases h2 : foldE (processIssue window) L₁ issues with e | L₂
    · rw [h2] at h; cases h
    · rw [h2] at h
      dsimp only at h
      cases h
      intro p hp
      rcases List.mem_map.mp hp with ⟨q, hq, rfl⟩
      rfl

/-! ### Comment-distribution characterization -/

theorem foldComments_present (per : Nat) :
    ∀ (hum : List String) (L : Ledger) (p : String) (e : Contributor),
    getEntry L p = some e →
    getEntry (hum.foldl
      (fun Lacc q => if (getEntry Lacc q).isSome then
        adjust Lacc q (fun e₁ => { e₁ with comments_made := e₁.comments_made + per })
        else Lacc) L) p =
      some { e with comments_made := e.comments_made + per * (hum.count p) } := by
  intro hum
  induction hum with
  | nil =>
    intro L p e h
    simpa using h
  | cons q t ih =>
    intro L p e h
    simp only [List.foldl_cons]
    by_cases hqp : q = p
    · subst hqp
      have hs : (getEntry L q).isSome = true := by rw [h]; rfl
      rw [if_pos hs]
      have h2 : getEntry (adjust L q
          (fun e₁ => { e₁ with comments_made := e₁.comments_made + per })) q =
          some { e with comments_made := e.comments_made + per } := by
        rw [getEntry_adjust, if_pos rfl, h]; rfl
      rw [ih _ _ _ h2]
      have hcount : (q :: t).count q = t.count q + 1 := by
        simp [List.count_cons]
      rw [hcount]
      have harith : e.comments_made + per + per * t.count q =
          e.comments_made + per * (t.count q + 1) := by ring
      simp only [harith]
    · by_cases hs : (getEntry L q).isSome = true
      · rw [if_pos hs]
        have h2 : getEntry (adjust L q
            (fun e₁ => { e₁ with comments_made := e₁.comments_made + per })) p =
            some e := by
          rw [getEntry_adjust, if_neg (fun hh => hqp hh.symm)]; exact h
        rw [ih _ _ _ h2]
        have hcount : (q :: t).count p = t.count p := by
          simp [List.count_cons, hqp]
        rw [hcount]
      · rw [if_neg hs]
        have hcount : (q :: t).count p = t.count p := by
          simp [List.count_cons, hqp]
        rw [ih _ _ _ h, hcount]

theorem foldComments_absent (per : Nat) :
    ∀ (hum : List String) (L : Ledger) (p : String),
    getEntry L p = none →
    getEntry (hum.foldl
      (fun Lacc q => if (getEntry Lacc q).isSome then
        adjust Lacc q (fun e₁ => { e₁ with comments_made := e₁.comments_made + per })
        else Lacc) L) p = none := by
  intro hum
  induction hum with
  | nil => intro L p h; exact h
  | cons q t ih =>
    intro L p h
    simp only [List.foldl_cons]
    by_cases hs : (getEntry L q).isSome = true
    · rw [if_pos hs]
      refine ih _ _ ?_
      rw [getEntry_adjust]
      by_cases hqp : p = q
      · subst hqp; rw [if_pos rfl, h]; rfl
      · rw [if_neg hqp]; exact h
    · rw [if_neg hs]
      exact ih _ _ h

theorem getEntry_distributeComments_present (L : Ledger) (cc : Nat)
    (parts : List String) (p : String) (e : Contributor)
    (hcc : 0 < cc) (hh : human_participants parts ≠ [])
    (h : getEntry L p = some e) :
    getEntry (distributeComments L cc parts) p =
      some { e with comments_made := e.comments_made +
        (max 1 (cc / (human_participants parts).length)) *
          ((human_participants parts).count p) } := by
  unfold distributeComments
  have hp : ¬parts.isEmpty = true := by
    intro hemp
    rw [List.isEmpty_iff.mp hemp] at hh
    exact hh rfl
  have hcond : (decide (cc > 0) && !parts.isEmpty) = true := by
    simp [hcc, hp]
  rw [if_pos hcond]
  dsimp only
  have hhum : ¬(human_participants parts).isEmpty = true := by
    intro hemp
    exact hh (List.isEmpty_iff.mp hemp)
  have hcond2 : (!(human_participants parts).isEmpty) = true := by
    simp [hhum]
  rw [if_pos hcond2]
  exact foldComments_present _ _ _ _ _ h

theorem getEntry_distributeComments_absent (L : Ledger) (cc : Nat)
    (parts : List String) (p : String) (h : getEntry L p = none) :
    getEntry (distributeComments L cc parts) p = none := by
  unfold distributeComments
  split
  · dsimp only
    split
    · exact foldComments_absent _ _ _ _ h
    · exact h
  · exact h

/-! ### Reviewer-counter characterization -/

/-- The `reviews_given` counter of login `k`, zero when `k` has no entry. -/
def reviews_given_of (L : Ledger) (k : String) : Nat :=
  ((getEntry L k).map (fun e => e.reviews_given)).getD 0

/-- How many nested reviews of record `i` qualify for login `k`: known,
non-bot reviewer `k` distinct from the record's author. -/
def qualifying_review_count (i : IssueRec) (k : String) : Nat :=
  (i.reviews.filter
    (fun r => reviewContrib (i.login.getD "unknown") r = some k)).length

theorem reviews_given_adjust (L : Ledger) (k₀ : String)
    (g : Contributor → Contributor)
    (hg : ∀ e, (g e).reviews_given = e.reviews_given) (k : String) :
    reviews_given_of (adjust L k₀ g) k = reviews_given_of L k := by
  unfold reviews_given_of
  rw [getEntry_adjust]
  by_cases h : k = k₀
  · subst h
    cases hE : getEntry L k with
    | none => simp
    | some e => simp [hg]
  · rw [if_neg h]

theorem reviews_given_upsert_id (L : Ledger) (k₀ : String) (k : String) :
    reviews_given_of (upsert L k₀ (blankEntry k₀) id) k = reviews_given_of L k := by
  unfold reviews_given_of
  rw [getEntry_upsert]
  by_cases h : k = k₀
  · subst h
    cases hE : getEntry L k with
    | none => simp [hE, blankEntry]
    | some e => simp [hE]
  · rw [if_neg h]

theorem reviews_given_upsert_incr (L : Ledger) (k₀ : String) (k : String) :
    reviews_given_of (upsert L k₀ (blankEntry k₀)
      (fun e => { e with reviews_given := e.reviews_given + 1 })) k =
      reviews_given_of L k + (if k₀ = k then 1 else 0) := by
  unfold reviews_given_of
  rw [getEntry_upsert]
  by_cases h : k = k₀
  · subst h
    rw [if_pos rfl, if_pos rfl]
    cases hE : getEntry L k with
    | none => simp [blankEntry]
    | some e => simp
  · rw [if_neg h, if_neg (fun hh => h hh.symm)]
    simp

theorem reviewContrib_qualifies (a : String) (r : ReviewRec)
    (h1 : ¬r.login.getD "unknown" = "unknown")
    (h2 : ¬is_bot_account (r.login.getD "unknown") "" "" = true)
    (h3 : ¬r.login.getD "unknown" = a) :
    reviewContrib a r = some (r.login.getD "unknown") := by
  unfold reviewContrib
  dsimp only
  rw [if_neg h1, if_neg h2, if_neg h3]

theorem reviews_given_processReview (L : Ledger) (a : String) (q : Option Nat)
    (r : ReviewRec) (k : String) :
    reviews_given_of (processReview L a q r) k =
      reviews_given_of L k + (if reviewContrib a r = some k then 1 else 0) := by
  by_cases h1 : r.login.getD "unknown" = "unknown"
  · unfold processReview reviewContrib
    dsimp only
    rw [if_pos h1, if_pos h1]
    simp
  by_cases h2 : is_bot_account (r.login.getD "unknown") "" "" = true
  · unfold processReview reviewContrib
    dsimp only
    rw [if_neg h1, if_neg h1, if_pos h2, if_pos h2]
    simp
  by_cases h3 : r.login.getD "unknown" = a
  · unfold processReview reviewContrib
    dsimp only
    rw [if_neg h1, if_neg h1, if_neg h2, if_neg h2, if_pos h3, if_pos h3]
    simp
  have hc : reviewContrib a r = some (r.login.getD "unknown") :=
    reviewContrib_qualifies a r h1 h2 h3
  have hite : (if reviewContrib a r = some k then 1 else 0) =
      (if r.login.getD "unknown" = k then 1 else 0) := by
    rw [hc]
    simp only [Option.some.injEq]
  rw [hite]
  unfold processReview
  dsimp only
  rw [if_neg h1, if_neg h2, if_neg h3]
  cases q with
  | none => exact reviews_given_upsert_incr L _ k
  | some j =>
    dsimp only
    rw [reviews_given_adjust _ _
      (fun e => { e with quarterly_activity := bumpQuarter e.quarterly_activity j })
      (fun e => rfl) k]
    exact reviews_given_upsert_incr L _ k

theorem reviews_given_reviewFold (a : String) (q : Option Nat) :
    ∀ (rs : List ReviewRec) (L : Ledger) (k : String),
    reviews_given_of (rs.foldl (fun Lacc r => processReview Lacc a q r) L) k =
      reviews_given_of L k +
        (rs.filter (fun r => reviewContrib a r = some k)).length := by
  intro rs
  induction rs with
  | nil => intro L k; simp
  | cons r t ih =>
    intro L k
    simp only [List.foldl_cons]
    rw [ih, reviews_given_processReview]
    by_cases hr : reviewContrib a r = some k
    · rw [if_pos hr]
      rw [List.filter_cons_of_pos (by simpa using hr)]
      simp [Nat.add_comm, Nat.add_assoc, Nat.add_left_comm]
    · rw [if_neg hr]
      rw [List.filter_cons_of_neg (by simpa using hr)]
      omega

theorem reviews_given_foldComments (per : Nat) :
    ∀ (hum : List String) (L : Ledger) (k : String),
    reviews_given_of (hum.foldl
      (fun Lacc q => if (getEntry Lacc q).isSome then
        adjust Lacc q (fun e₁ => { e₁ with comments_made := e₁.comments_made + per })
        else Lacc) L) k = reviews_given_of L k := by
  intro hum
  induction hum with
  | nil => intro L k; rfl
  | cons q t ih =>
    intro L k
    simp only [List.foldl_cons]
    rw [ih]
    split
    · exact reviews_given_adjust _ _
        (fun e₁ => { e₁ with comments_made := e₁.comments_made + per })
        (fun e => rfl) k
    · rfl

theorem reviews_given_distributeComments (L : Ledger) (cc : Nat)
    (parts : List String) (k : String) :
    reviews_given_of (distributeComments L cc parts) k = reviews_given_of L k := by
  unfold distributeComments
  split
  · dsimp only
    split
    · exact reviews_given_foldComments _ _ L k
    · rfl
  · rfl

theorem reviews_given_processIssue (window : Nat) (L : Ledger) (i : IssueRec)
    (L₂ : Ledger) (h : processIssue window L i = Except.ok L₂)
    (ha : ¬i.login.getD "unknown" = "unknown")
    (hb : ¬is_bot_account (i.login.getD "unknown") "" "" = true) (k : String) :
    reviews_given_of L₂ k = reviews_given_of L k + qualifying_review_count i k := by
  unfold processIssue at h
  dsimp only at h
  rw [if_neg ha, if_neg hb] at h
  rcases hq : get_quarter window i.createdDaysAgo with e | q
  · rw [hq] at h; cases h
  · rw [hq] at h
    dsimp only at h
    cases h
    rw [reviews_given_distributeComments, reviews_given_reviewFold]
    unfold qualifying_review_count
    congr 1
    cases q with
    | none =>
      dsimp only
      split
      · rw [reviews_given_adjust _ _
          (fun e => { e with prs_created := e.prs_created + 1 }) (fun e => rfl) k,
          reviews_given_upsert_id]
      · rw [reviews_given_adjust _ _
          (fun e => { e with issues_created := e.issues_created + 1 }) (fun e => rfl) k,
          reviews_given_upsert_id]
    | some j =>
      dsimp only
      rw [reviews_given_adjust _ _
        (fun e => { e with quarterly_activity := bumpQuarter e.quarterly_activity j })
        (fun e => rfl) k]
      split
      · rw [reviews_given_adjust _ _
          (fun e => { e with prs_created := e.prs_created + 1 }) (fun e => rfl) k,
          reviews_given_upsert_id]
      · rw [reviews_given_adjust _ _
          (fun e => { e with issues_created := e.issues_created + 1 }) (fun e => rfl) k,
          reviews_given_upsert_id]

theorem processReview_ignores_review_time (L : Ledger) (a : String)
    (q : Option Nat) (r : ReviewRec) (t : Option Int) :
    processReview L a q { r with submittedDaysAgo := t } = processReview L a q r := rfl

theorem processIssue_ignores_review_times (window : Nat) (L : Ledger)
    (i : IssueRec) (g : ReviewRec → Option Int) :
    processIssue window L
      { i with reviews := i.reviews.map (fun r => { r with submittedDaysAgo := g r }) } =
      processIssue window L i := by
  unfold processIssue
  dsimp only
  rcases hgq : get_quarter window i.createdDaysAgo with e | q
  · rfl
  · dsimp only
    rw [List.foldl_map]
    simp only [processReview_ignores_review_time]

theorem processReview_buckets_pr_quarter (M : Ledger) (a : String) (j : Nat)
    (r : ReviewRec) (k : String) (hq : reviewContrib a r = some k) :
    getEntry (processReview M a (some j) r) k =
      some (
        let e := (getEntry M k).getD (blankEntry k)
        { e with reviews_given := e.reviews_given + 1,
                 quarterly_activity := bumpQuarter e.quarterly_activity j }) := by
  unfold reviewContrib at hq
  dsimp only at hq
  split_ifs at hq with h1 h2 h3
  have hk : r.login.getD "unknown" = k := Option.some_injective _ hq
  unfold processReview
  dsimp only
  rw [if_neg h1, if_neg h2, if_neg h3]
  subst hk
  rw [getEntry_adjust, if_pos rfl, getEntry_upsert, if_pos rfl]
  cases hE : getEntry M (r.login.getD "unknown") with
  | none => rfl
  | some e => rfl

/-! ### Claim theorems -/

/-- C1: for every non-empty contributor ledger (with a positive activity total,
which every reachable non-empty ledger has), the concentration risk equals
clamp((top_pct − 30)/40, 0, 1) where top_pct is the head entry's total activity
over the sum of all totals times 100: exactly 0 at or below a 30% share,
exactly 1 at or above 70%, and linear in between. -/
theorem C1_concentration_risk_formula (l : List (String × Contributor))
    (hne : l ≠ []) (hpos : 0 < total_activity_sum l) :
    concentration_risk l =
      min 1 (max 0 ((top_contributor_percentage l - 30) / 40)) ∧
    (∀ top rest, l = top :: rest →
      top_contributor_percentage l =
        (top.2.total_activity : ℚ) / total_activity_sum l * 100) ∧
    (top_contributor_percentage l ≤ 30 → concentration_risk l = 0) ∧
    (70 ≤ top_contributor_percentage l → concentration_risk l = 1) ∧
    (30 ≤ top_contributor_percentage l → top_contributor_percentage l ≤ 70 →
      concentration_risk l = (top_contributor_percentage l - 30) / 40) := by
  refine ⟨rfl, ?_, ?_, ?_, ?_⟩
  · intro top rest hl
    subst hl
    unfold top_contributor_percentage
    dsimp only
    rw [if_pos hpos]
  · intro h
    unfold concentration_risk
    have hx : (top_contributor_percentage l - 30) / 40 ≤ 0 :=
      div_nonpos_of_nonpos_of_nonneg (by linarith) (by norm_num)
    rw [max_eq_left hx]
    norm_num
  · intro h
    unfold concentration_risk
    have hx : (1 : ℚ) ≤ (top_contributor_percentage l - 30) / 40 := by
      rw [le_div_iff₀ (by norm_num : (0 : ℚ) < 40)]
      linarith
    rw [max_eq_right (by linarith : (0 : ℚ) ≤ (top_contributor_percentage l - 30) / 40),
      min_eq_left hx]
  · intro h1 h2
    unfold concentration_risk
    have hx0 : (0 : ℚ) ≤ (top_contributor_percentage l - 30) / 40 :=
      div_nonneg (by linarith) (by norm_num)
    have hx1 : (top_contributor_percentage l - 30) / 40 ≤ 1 := by
      rw [div_le_one (by norm_num : (0 : ℚ) < 40)]
      linarith
    rw [max_eq_right hx0, min_eq_right hx1]

/-- A two-entry ledger with equal totals, used to instantiate C1. -/
def c1wLedger : List (String × Contributor) :=
  [("a", { blankEntry "a" with total_activity := 1 }),
   ("b", { blankEntry "b" with total_activity := 1 })]

/-- Witness for C1 at a concrete two-contributor ledger. -/
theorem C1_witness :
    concentration_risk c1wLedger =
      min 1 (max 0 ((top_contributor_percentage c1wLedger - 30) / 40)) ∧
    (top_contributor_percentage c1wLedger ≤ 30 →
      concentration_risk c1wLedger = 0) :=
  ⟨(C1_concentration_risk_formula c1wLedger (by decide)
      (by norm_num [c1wLedger, total_activity_sum, blankEntry])).1,
   (C1_concentration_risk_formula c1wLedger (by decide)
      (by norm_num [c1wLedger, total_activity_sum, blankEntry])).2.2.1⟩

/-- C4 (amended): with zero ledger entries the scorer returns risk exactly 1,
zero counts, an empty contributor list and an empty activity distribution, but
reports the top-contributor percentage as 100, not 0. -/
theorem C4_zero_contributors (nCommits nIssues : Nat) :
    concentration_outcome [] nCommits nIssues =
      ConcOutcome.emptyLedger
        { contributor_concentration_risk := 1,
          total_active_contributors := 0,
          recent_commits_analyzed := nCommits,
          recent_issues_analyzed := nIssues,
          active_contributors := [],
          top_contributor_percentage := 100,
          activity_distribution := [] } := rfl

/-- C4 counterexample: the zero-entry early return reports
`top_contributor_percentage = 100`, so not every distribution figure is zero
or empty as the claim states. -/
theorem C4_counterexample :
    concentration_outcome [] 0 0 =
      ConcOutcome.emptyLedger (empty_ledger_result 0 0) ∧
    (empty_ledger_result 0 0).top_contributor_percentage = 100 ∧
    (empty_ledger_result 0 0).top_contributor_percentage ≠ 0 := by
  refine ⟨rfl, rfl, ?_⟩
  norm_num [empty_ledger_result]

/-- C6: `get_quarter` raises `ZeroDivisionError` (modelled as `Except.error`)
for every window length below 4, because `quarter_length = window // 4` is
zero — even though the tool schema admits windows down to 1 day; for larger
windows the in-range behavior matches the claim. -/
theorem C6_quarter_raises_small_window :
    get_quarter 1 (some 0) = Except.error () ∧
    get_quarter 2 (some 1) = Except.error () ∧
    get_quarter 3 (some 2) = Except.error () ∧
    get_quarter 4 (some 0) = Except.ok (some 3) ∧
    get_quarter 365 (some 0) = Except.ok (some 3) ∧
    get_quarter 365 (some 364) = Except.ok (some 0) ∧
    get_quarter 365 (some 400) = Except.ok none ∧
    get_quarter 365 (some (-1)) = Except.ok none :=
  ⟨rfl, rfl, rfl, rfl, rfl, rfl, rfl, rfl⟩

/-- C9: `_classify_email_domain` is total: empty or `'@'`-free strings yield
the no-email sentinel, and otherwise the category of the lowercased substring
after the last `'@'` is decided in the strict order custom → company →
academic suffix → personal → default personal. -/
theorem C9_email_classification_order (custom : List String) (email : String) :
    ((email = "" ∨ email.data.contains '@' = false) →
      classify_email_domain custom email = "no email available") ∧
    (email.data.contains '@' = true →
      (custom.contains (strLower (domainAfterAt email)) = true →
        classify_email_domain custom email = "custom") ∧
      (custom.contains (strLower (domainAfterAt email)) = false →
        company_domains.contains (strLower (domainAfterAt email)) = true →
        classify_email_domain custom email = "company") ∧
      (custom.contains (strLower (domainAfterAt email)) = false →
        company_domains.contains (strLower (domainAfterAt email)) = false →
        academic_tlds.any
          (fun tld => endsWithStr (strLower (domainAfterAt email)) tld) = true →
        classify_email_domain custom email = "academic") ∧
      (custom.contains (strLower (domainAfterAt email)) = false →
        company_domains.contains (strLower (domainAfterAt email)) = false →
        academic_tlds.any
          (fun tld => endsWithStr (strLower (domainAfterAt email)) tld) = false →
        personal_domains.contains (strLower (domainAfterAt email)) = true →
        classify_email_domain custom email = "personal") ∧
      (custom.contains (strLower (domainAfterAt email)) = false →
        company_domains.contains (strLower (domainAfterAt email)) = false →
        academic_tlds.any
          (fun tld => endsWithStr (strLower (domainAfterAt email)) tld) = false →
        personal_domains.contains (strLower (domainAfterAt email)) = false →
        classify_email_domain custom email = "personal")) := by
  constructor
  · rintro (h | h)
    · subst h; rfl
    · unfold classify_email_domain
      rw [if_pos (by rw [h]; simp)]
  · intro hat
    have hne : ¬email = "" := by
      intro he
      subst he
      simp [List.contains] at hat
    unfold classify_email_domain
    rw [if_neg (by rw [hat]; simp [hne])]
    dsimp only
    refine ⟨fun h1 => ?_, fun h1 h2 => ?_, fun h1 h2 h3 => ?_,
      fun h1 h2 h3 h4 => ?_, fun h1 h2 h3 h4 => ?_⟩
    · rw [if_pos h1]
    · rw [if_neg (by rw [h1]; simp), if_pos h2]
    · rw [if_neg (by rw [h1]; simp), if_neg (by rw [h2]; simp), if_pos h3]
    · rw [if_neg (by rw [h1]; simp), if_neg (by rw [h2]; simp), if_neg (by rw [h3]; simp),
        if_pos h4]
    · rw [if_neg (by rw [h1]; simp), if_neg (by rw [h2]; simp), if_neg (by rw [h3]; simp),
        if_neg (by rw [h4]; simp)]

/-- Witness for C9 across every branch at concrete emails. -/
theorem C9_witness :
    classify_email_domain [] "nobody" = "no email available" ∧
    classify_email_domain ["corp.io"] "Dev@CORP.io" = "custom" ∧
    classify_email_domain [] "x@ibm.com" = "company" ∧
    classify_email_domain [] "x@tsinghua.edu.cn" = "academic" ∧
    classify_email_domain [] "x@yahoo.com" = "personal" ∧
    classify_email_domain [] "x@randomstartup.dev" = "personal" :=
  ⟨(C9_email_classification_order [] "nobody").1 (Or.inr (by decide)),
   ((C9_email_classification_order ["corp.io"] "Dev@CORP.io").2 (by decide)).1
     (by decide),
   ((C9_email_classification_order [] "x@ibm.com").2 (by decide)).2.1
     (by decide) (by decide),
   ((C9_email_classification_order [] "x@tsinghua.edu.cn").2 (by decide)).2.2.1
     (by decide) (by decide) (by decide),
   ((C9_email_classification_order [] "x@yahoo.com").2 (by decide)).2.2.2.1
     (by decide) (by decide) (by decide) (by decide),
   ((C9_email_classification_order [] "x@randomstartup.dev").2 (by decide)).2.2.2.2
     (by decide) (by decide) (by decide) (by decide)⟩

theorem analyze_repositories_getD (single : String → Except String RiskAnalysis) :
    ∀ (urls : List String) (n : Nat) (d : RiskAnalysis), n < urls.length →
    (analyze_repositories single urls).getD n d =
      (match single (urls.getD n "") with
       | Except.ok a => a
       | Except.error e => error_analysis (urls.getD n "") e) := by
  intro urls
  induction urls with
  | nil => intro n d h; simp at h
  | cons u t ih =>
    intro n d h
    cases n with
    | zero => rfl
    | succ m =>
      have hm : m < t.length := by simpa using h
      simpa [analyze_repositories] using ih m d hm

/-- C10: `analyze_repositories` returns one report per submitted identifier; a
repository whose analysis fails yields a report with risk score 1, an error
risk factor and exactly one unable-to-analyze recommendation, while every
successfully analyzed repository's report passes through untouched. -/
theorem C10_batch_failure_isolation
    (single : String → Except String RiskAnalysis) (urls : List String) :
    (analyze_repositories single urls).length = urls.length ∧
    (∀ (n : Nat) (d : RiskAnalysis), n < urls.length →
      (∀ a, single (urls.getD n "") = Except.ok a →
        (analyze_repositories single urls).getD n d = a) ∧
      (∀ e, single (urls.getD n "") = Except.error e →
        (analyze_repositories single urls).getD n d =
          error_analysis (urls.getD n "") e ∧
        ((analyze_repositories single urls).getD n d).overall_risk_score = 1 ∧
        ((analyze_repositories single urls).getD n d).risk_factors =
          RiskFactors.failure e ∧
        ((analyze_repositories single urls).getD n d).recommendations =
          [RecMsg.unable_to_analyze])) := by
  refine ⟨by simp [analyze_repositories], ?_⟩
  intro n d hn
  constructor
  · intro a ha
    rw [analyze_repositories_getD single urls n d hn, ha]
  · intro e he
    rw [analyze_repositories_getD single urls n d hn, he]
    exact ⟨rfl, rfl, rfl, rfl⟩

/-- A batch analyzer stub for the C10 witness: the middle repository fails. -/
def c10single (u : String) : Except String RiskAnalysis :=
  if u = "repo-b" then Except.error "boom"
  else Except.ok
    { repository := u, overall_risk_score := 0,
      risk_factors := RiskFactors.normal
        (ConcOutcome.emptyLedger (empty_ledger_result 0 0)),
      recommendations := [RecMsg.healthy_distribution] }

/-- Witness for C10 on a three-repository batch whose middle entry fails. -/
theorem C10_witness :
    (analyze_repositories c10single ["repo-a", "repo-b", "repo-c"]).length = 3 ∧
    (analyze_repositories c10single
      ["repo-a", "repo-b", "repo-c"]).getD 1 (error_analysis "" "") =
      error_analysis "repo-b" "boom" ∧
    ((analyze_repositories c10single
      ["repo-a", "repo-b", "repo-c"]).getD 1 (error_analysis "" "")).overall_risk_score = 1 :=
  ⟨(C10_batch_failure_isolation c10single ["repo-a", "repo-b", "repo-c"]).1,
   (((C10_batch_failure_isolation c10single ["repo-a", "repo-b", "repo-c"]).2
      1 (error_analysis "" "") (by decide)).2 "boom" rfl).1,
   (((C10_batch_failure_isolation c10single ["repo-a", "repo-b", "repo-c"]).2
      1 (error_analysis "" "") (by decide)).2 "boom" rfl).2.1⟩

/-- `recent_half = quarters[2] + quarters[3]` (app.py line 960). -/
def recent_half (c : Contributor) : Nat :=
  c.quarterly_activity.getD 2 0 + c.quarterly_activity.getD 3 0

/-- `older_half = quarters[0] + quarters[1]` (app.py line 961). -/
def older_half (c : Contributor) : Nat :=
  c.quarterly_activity.getD 0 0 + c.quarterly_activity.getD 1 0

/-- The sum of the five counters, the value `total_activity` is recomputed to
in the finalization pass (app.py lines 948-954). -/
def total_activity_of (c : Contributor) : Nat :=
  c.commits + c.issues_created + c.prs_created + c.reviews_given + c.comments_made

/-- C5: entries with total activity at least 10 receive the trend label
computed from recent = q2+q3 and older = q0+q1 exactly as claimed (edge cases
first, then the 1.5 / 0.67 ratio thresholds), and entries below 10 are labeled
insufficient_data. -/
theorem C5_trend_labels (c : Contributor) :
    (total_activity_of c < 10 →
      (finalizeEntry c).activity_trend = "insufficient_data") ∧
    (10 ≤ total_activity_of c →
      (older_half c = 0 → 0 < recent_half c →
        (finalizeEntry c).activity_trend = "increasing") ∧
      (recent_half c = 0 → 0 < older_half c →
        (finalizeEntry c).activity_trend = "decreasing") ∧
      (older_half c = 0 → recent_half c = 0 →
        (finalizeEntry c).activity_trend = "stable") ∧
      (0 < older_half c → 0 < recent_half c →
        ((1.5 < (recent_half c : ℚ) / (older_half c : ℚ) →
          (finalizeEntry c).activity_trend = "increasing") ∧
         ((recent_half c : ℚ) / (older_half c : ℚ) < 0.67 →
          (finalizeEntry c).activity_trend = "decreasing") ∧
         (¬(1.5 < (recent_half c : ℚ) / (older_half c : ℚ)) →
          ¬((recent_half c : ℚ) / (older_half c : ℚ) < 0.67) →
          (finalizeEntry c).activity_trend = "stable")))) := by
  unfold finalizeEntry trend_from total_activity_of older_half recent_half
  dsimp only
  constructor
  · intro h
    rw [if_neg (by omega)]
  · intro h10
    rw [if_pos h10]
    refine ⟨fun ho hr => ?_, fun hr ho => ?_, fun ho hr => ?_, fun ho hr => ?_⟩
    · rw [if_pos ⟨ho, hr⟩]
    · rw [if_neg (by rintro ⟨h1, h2⟩; omega), if_pos ⟨hr, ho⟩]
    · rw [if_neg (by rintro ⟨h1, h2⟩; omega),
        if_neg (by rintro ⟨h1, h2⟩; omega), if_pos ⟨ho, hr⟩]
    · rw [if_neg (by rintro ⟨h1, h2⟩; omega),
        if_neg (by rintro ⟨h1, h2⟩; omega),
        if_neg (by rintro ⟨h1, h2⟩; omega)]
      refine ⟨fun hgt => ?_, fun hlt => ?_, fun hngt hnlt => ?_⟩
      · rw [if_pos hgt]
      · rw [if_neg (by intro hh; linarith), if_pos hlt]
      · rw [if_neg hngt, if_neg hnlt]

/-- A highly active contributor whose activity sits entirely in the recent
half, used to instantiate C5. -/
def c5w : Contributor :=
  { blankEntry "w" with commits := 12, quarterly_activity := [0, 0, 5, 7] }

/-- Witness for C5: the concrete contributor is labeled increasing. -/
theorem C5_witness :
    (finalizeEntry c5w).activity_trend = "increasing" :=
  ((C5_trend_labels c5w).2 (by decide)).1 (by decide) (by decide)

/-! ### C3: recommendation gating -/

theorem rec_step2_shape (x : RecInput) (m : RecMsg) (h : m ∈ rec_step2 x) :
    ∃ t, m = RecMsg.security_risk t := by
  unfold rec_step2 at h
  split at h
  · simp at h
  · split at h
    · simp at h
      exact ⟨_, h⟩
    · simp at h

theorem rec_step3_shape (x : RecInput) (m : RecMsg) (h : m ∈ rec_step3 x) :
    m = RecMsg.recruit_maintainers ∨ m = RecMsg.monitor_diversity := by
  unfold rec_step3 at h
  split_ifs at h <;> simp at h <;> simp [h]

theorem rec_step4_shape (x : RecInput) (m : RecMsg) (h : m ∈ rec_step4 x) :
    m = RecMsg.critical_few_contributors ∨ m = RecMsg.low_contributor_count := by
  unfold rec_step4 at h
  split_ifs at h <;> simp at h <;> simp [h]

theorem rec_step5_shape (x : RecInput) (m : RecMsg) (h : m ∈ rec_step5 x) :
    m = RecMsg.knowledge_sharing := by
  unfold rec_step5 at h
  split_ifs at h <;> simp at h
  exact h

theorem mem_generate_iff (x : RecInput) (m : RecMsg)
    (hm : m ≠ RecMsg.healthy_distribution) :
    m ∈ generate_recommendations x ↔
      m ∈ rec_step1 x ∨ m ∈ rec_step2 x ∨ m ∈ rec_step3 x ∨
        m ∈ rec_step4 x ∨ m ∈ rec_step5 x := by
  unfold generate_recommendations
  dsimp only
  split
  · rename_i hEmpty
    have hnil := List.isEmpty_iff.mp hEmpty
    simp only [List.append_eq_nil] at hnil
    obtain ⟨⟨⟨⟨h1, h2⟩, h3⟩, h4⟩, h5⟩ := hnil
    simp [h1, h2, h3, h4, h5, hm]
  · simp [List.mem_append, or_assoc]

/-- C3 (amended): with concentration risk above 0.5 and at most 3 contributors,
the abandonment / capacity messages fire only when the top contributor's email
category is literally one of personal, N/A, unknown: decreasing trend yields
the abandonment-risk message and stable/increasing the capacity-risk message;
any other category — company, but also academic, custom, or the no-email
sentinel — suppresses both messages. -/
theorem C3_recommendation_gating (x : RecInput) (top : ContribView)
    (rest : List ContribView)
    (hl : x.active_contributors = top :: rest)
    (hr : x.contributor_concentration_risk > 0.5)
    (ht : x.total_active_contributors ≤ 3) :
    ((top.email_type = "personal" ∨ top.email_type = "N/A" ∨
        top.email_type = "unknown") →
      ((top.activity_trend = "decreasing" →
        RecMsg.abandonment_risk ∈ generate_recommendations x) ∧
       (top.activity_trend = "stable" ∨ top.activity_trend = "increasing" →
        RecMsg.capacity_risk ∈ generate_recommendations x))) ∧
    ((top.email_type ≠ "personal" ∧ top.email_type ≠ "N/A" ∧
        top.email_type ≠ "unknown") →
      RecMsg.abandonment_risk ∉ generate_recommendations x ∧
      RecMsg.capacity_risk ∉ generate_recommendations x) := by
  have hcond : (decide (x.contributor_concentration_risk > 0.5) &&
      decide (x.total_active_contributors ≤ 3)) = true := by
    simp [hr, ht]
  have hstep1 : rec_step1 x =
      (if top.email_type = "personal" || top.email_type = "N/A" ||
          top.email_type = "unknown" then
        if top.activity_trend = "decreasing" then [RecMsg.abandonment_risk]
        else if top.activity_trend = "stable" || top.activity_trend = "increasing"
          then [RecMsg.capacity_risk]
        else []
      else []) := by
    unfold rec_step1
    rw [if_pos hcond, hl]
  constructor
  · intro hmail
    have hmailb : (top.email_type = "personal" || top.email_type = "N/A" ||
        top.email_type = "unknown") = true := by
      rcases hmail with h | h | h <;> simp [h]
    constructor
    · intro htr
      rw [mem_generate_iff x RecMsg.abandonment_risk (by simp)]
      refine Or.inl ?_
      rw [hstep1, if_pos hmailb, if_pos htr]
      simp
    · intro htr
      have htrb : (top.activity_trend = "stable" ||
          top.activity_trend = "increasing") = true := by
        rcases htr with h | h <;> simp [h]
      have hntr : ¬top.activity_trend = "decreasing" := by
        rcases htr with h | h <;> rw [h] <;> decide
      rw [mem_generate_iff x RecMsg.capacity_risk (by simp)]
      refine Or.inl ?_
      rw [hstep1, if_pos hmailb, if_neg hntr, if_pos htrb]
      simp
  · intro hmail
    obtain ⟨h1, h2, h3⟩ := hmail
    have hmailb : ¬((top.email_type = "personal" || top.email_type = "N/A" ||
        top.email_type = "unknown") = true) := by
      simp [h1, h2, h3]
    have hstep1nil : rec_step1 x = [] := by
      rw [hstep1, if_neg hmailb]
    constructor
    · intro hmem
      rw [mem_generate_iff x RecMsg.abandonment_risk (by simp)] at hmem
      rcases hmem with h | h | h | h | h
      · rw [hstep1nil] at h; simp at h
      · rcases rec_step2_shape x _ h with ⟨t, ht2⟩; cases ht2
      · rcases rec_step3_shape x _ h with h4 | h4 <;> cases h4
      · rcases rec_step4_shape x _ h with h4 | h4 <;> cases h4
      · cases rec_step5_shape x _ h
    · intro hmem
      rw [mem_generate_iff x RecMsg.capacity_risk (by simp)] at hmem
      rcases hmem with h | h | h | h | h
      · rw [hstep1nil] at h; simp at h
      · rcases rec_step2_shape x _ h with ⟨t, ht2⟩; cases ht2
      · rcases rec_step3_shape x _ h with h4 | h4 <;> cases h4
      · rcases rec_step4_shape x _ h with h4 | h4 <;> cases h4
      · cases rec_step5_shape x _ h

/-- A risk-factor bundle with high concentration, a single contributor whose
top entry has the non-company email category "academic" and a decreasing
trend. -/
def c3x : RecInput :=
  { total_active_contributors := 1,
    contributor_concentration_risk := 0.6,
    avg_pr_close_time_days := none,
    active_contributors := [{ email_type := "academic", activity_trend := "decreasing" }],
    top_3_contributors_percentage := 0 }

/-- C3 counterexample: the bundle `c3x` satisfies every trigger the claim
names — risk above 0.5, one contributor, a top contributor with a non-company
email category and decreasing trend — yet the abandonment-risk message is not
emitted, because the code only accepts the categories personal, N/A, unknown. -/
theorem C3_counterexample :
    c3x.contributor_concentration_risk > 0.5 ∧
    c3x.total_active_contributors ≤ 3 ∧
    (c3x.active_contributors.headD ⟨"", ""⟩).email_type = "academic" ∧
    (c3x.active_contributors.headD ⟨"", ""⟩).email_type ≠ "company" ∧
    (c3x.active_contributors.headD ⟨"", ""⟩).activity_trend = "decreasing" ∧
    RecMsg.abandonment_risk ∉ generate_recommendations c3x := by
  refine ⟨by norm_num [c3x], by norm_num [c3x], by decide, by decide, by decide, ?_⟩
  have hcond : (decide (c3x.contributor_concentration_risk > 0.5) &&
      decide (c3x.total_active_contributors ≤ 3)) = true := by
    simp only [c3x, Bool.and_eq_true, decide_eq_true_eq]
    norm_num
  have hstep1 : rec_step1 c3x = [] := by
    unfold rec_step1
    rw [if_pos hcond]
    dsimp [c3x]
  intro hmem
  rw [mem_generate_iff c3x RecMsg.abandonment_risk (by simp)] at hmem
  rcases hmem with h | h | h | h | h
  · rw [hstep1] at h; simp at h
  · rcases rec_step2_shape _ _ h with ⟨t, ht⟩; cases ht
  · rcases rec_step3_shape _ _ h with h4 | h4 <;> cases h4
  · rcases rec_step4_shape _ _ h with h4 | h4 <;> cases h4
  · cases rec_step5_shape _ _ h

/-- A bundle matching C3's personal-email decreasing-trend branch. -/
def c3w : RecInput :=
  { total_active_contributors := 1,
    contributor_concentration_risk := 0.9,
    avg_pr_close_time_days := none,
    active_contributors := [{ email_type := "personal", activity_trend := "decreasing" }],
    top_3_contributors_percentage := 0 }

/-- Witness for C3: the abandonment-risk message fires on `c3w`. -/
theorem C3_witness :
    RecMsg.abandonment_risk ∈ generate_recommendations c3w :=
  (((C3_recommendation_gating c3w ⟨"personal", "decreasing"⟩ [] rfl
    (by norm_num [c3w]) (by norm_num [c3w])).1 (Or.inl rfl)).1 rfl)

/-! ### C2: ledger key set and totals -/

/-- The ledger key set as the claim's sentence describes it (a second
definition following the spec's words, for comparison): all distinct non-bot,
non-"unknown" logins appearing as resolved commit authors, issue/PR authors,
or PR reviewers within the window. -/
def spec_claimed_logins (commits : List CommitRec) (issues : List IssueRec) :
    List String :=
  (commits.flatMap (fun c =>
    let l := resolveCommitLogin c
    if l ≠ "unknown" && !(is_bot_account l (c.name.getD "Unknown") c.email)
    then [l] else []))
  ++ (issues.flatMap (fun i =>
    let a := i.login.getD "unknown"
    if a ≠ "unknown" && !(is_bot_account a "" "") then [a] else []))
  ++ (issues.flatMap (fun i =>
    i.reviews.filterMap (fun r =>
      let rl := r.login.getD "unknown"
      if rl ≠ "unknown" && !(is_bot_account rl "" "") then some rl else none)))

/-- A commit with neither an account login nor an author name. -/
def c2cexCommit : CommitRec :=
  { login := none, name := none, email := "", daysAgo := some 0 }

/-- C2 counterexample: the authorless commit enters the ledger under the
literal login "unknown", while the claim's union of non-"unknown" logins is
empty — the two sets differ. -/
theorem C2_counterexample :
    (aggregate_contributors [] 365 [c2cexCommit] []).map
      (fun L => (getEntry L "unknown").isSome) = Except.ok true ∧
    spec_claimed_logins [c2cexCommit] [] = [] :=
  ⟨rfl, rfl⟩

/-- C2 (amended): after a completed aggregation run the ledger's key set is
exactly `expectedLogins`: the resolved non-bot commit-author logins (which may
be the literal "unknown" when both account login and author name are absent),
plus the known non-bot issue/PR authors, plus the known non-bot reviewers
distinct from their record's author — reviews on records whose own author is
unknown or a bot contribute nothing; and every entry's total activity equals
the sum of its five counters. -/
theorem C2_ledger_keys_and_totals (custom : List String) (window : Nat)
    (commits : List CommitRec) (issues : List IssueRec) (L : Ledger)
    (h : aggregate_contributors custom window commits issues = Except.ok L) :
    (∀ k, (getEntry L k).isSome = true ↔ k ∈ expectedLogins commits issues) ∧
    (∀ p ∈ L, p.2.total_activity =
      p.2.commits + p.2.issues_created + p.2.prs_created +
      p.2.reviews_given + p.2.comments_made) :=
  ⟨getEntry_aggregate custom window commits issues L h,
   aggregate_total_activity custom window commits issues L h⟩

/-- A normal commit, used by the C2 witness. -/
def c2wCommit : CommitRec :=
  { login := some "alice", name := some "Alice", email := "alice@gmail.com",
    daysAgo := some 10 }

/-- A PR by bob, reviewed by carol, with three comments, for the C2 witness. -/
def c2wIssue : IssueRec :=
  { login := some "bob", isPR := true, createdDaysAgo := some 5,
    reviews := [{ login := some "carol", submittedDaysAgo := some 4 }],
    comments := 3, participants := ["alice", "bob"] }

/-- The ledger computed on the C2 witness records. -/
def c2wLedger : Ledger :=
  match aggregate_contributors [] 365 [c2wCommit] [c2wIssue] with
  | Except.ok l => l
  | Except.error _ => []

/-- Witness for C2 at a concrete run. -/
theorem C2_witness :
    (getEntry c2wLedger "carol").isSome = true ↔
      "carol" ∈ expectedLogins [c2wCommit] [c2wIssue] :=
  (C2_ledger_keys_and_totals [] 365 [c2wCommit] [c2wIssue] c2wLedger rfl).1 "carol"

/-! ### C7: reviewer attribution -/

/-- A PR authored by a bot with a human review, for the C7 counterexample. -/
def c7botPR : IssueRec :=
  { login := some "dependabot", isPR := true, createdDaysAgo := some 0,
    reviews := [{ login := some "alice", submittedDaysAgo := some 0 }],
    comments := 0, participants := [] }

/-- C7 counterexample: alice's review on the bot-authored PR satisfies every
reviewer-side condition the claim names (known, non-bot, distinct from the
author), yet the run produces an empty ledger — the whole record is skipped
because of its author, so alice's `reviews_given` is never incremented. -/
theorem C7_counterexample :
    aggregate_contributors [] 365 [] [c7botPR] = Except.ok [] ∧
    (c7botPR.reviews.headD ⟨none, none⟩).login = some "alice" ∧
    is_bot_account "alice" "" "" = false ∧
    ("alice" : String) ≠ "dependabot" ∧
    is_bot_account "dependabot" "" "" = true :=
  ⟨rfl, rfl, by decide, by decide, by decide⟩

/-- C7 (amended): on a record whose author is known and non-bot, each known
non-bot reviewer distinct from the author has `reviews_given` incremented once
per qualifying review; the result is independent of the reviews' own
timestamps, and a qualifying review buckets quarterly activity at the
enclosing record's creation quarter passed to `processReview`. -/
theorem C7_review_attribution (window : Nat) (L : Ledger) (i : IssueRec)
    (L₂ : Ledger) (h : processIssue window L i = Except.ok L₂)
    (ha : ¬i.login.getD "unknown" = "unknown")
    (hb : ¬is_bot_account (i.login.getD "unknown") "" "" = true) :
    (∀ k, reviews_given_of L₂ k =
      reviews_given_of L k + qualifying_review_count i k) ∧
    (∀ g : ReviewRec → Option Int,
      processIssue window L
        { i with reviews :=
            i.reviews.map (fun r => { r with submittedDaysAgo := g r }) } =
        Except.ok L₂) ∧
    (∀ (M : Ledger) (j : Nat) (r : ReviewRec) (k : String),
      reviewContrib (i.login.getD "unknown") r = some k →
      getEntry (processReview M (i.login.getD "unknown") (some j) r) k =
        some (
          let e := (getEntry M k).getD (blankEntry k)
          { e with reviews_given := e.reviews_given + 1,
                   quarterly_activity := bumpQuarter e.quarterly_activity j })) :=
  ⟨fun k => reviews_given_processIssue window L i L₂ h ha hb k,
   fun g => by rw [processIssue_ignores_review_times]; exact h,
   fun M j r k hq => processReview_buckets_pr_quarter M _ j r k hq⟩

/-- A PR by bob reviewed by carol, for the C7 witness. -/
def c7wIssue : IssueRec :=
  { login := some "bob", isPR := true, createdDaysAgo := some 5,
    reviews := [{ login := some "carol", submittedDaysAgo := some 9 }],
    comments := 0, participants := [] }

/-- The ledger computed from the C7 witness record. -/
def c7wLedger : Ledger :=
  match processIssue 365 [] c7wIssue with
  | Except.ok l => l
  | Except.error _ => []

/-- Witness for C7 at a concrete record. -/
theorem C7_witness :
    reviews_given_of c7wLedger "carol" =
      reviews_given_of [] "carol" + qualifying_review_count c7wIssue "carol" :=
  (C7_review_attribution 365 [] c7wIssue c7wLedger rfl (by decide) (by decide)).1
    "carol"

/-! ### C8: comment distribution -/

/-- The PR of end-to-end scenario C: 9 comments, participants a, b, c. -/
def c8PR : IssueRec :=
  { login := some "a", isPR := true, createdDaysAgo := some 0, reviews := [],
    comments := 9, participants := ["a", "b", "c"] }

/-- C8 counterexample: on scenario C's PR only the author "a" — the sole
participant already present in the ledger — receives the 3-comment share;
"b" and "c" get no entry and no comments, contrary to the claim. -/
theorem C8_counterexample :
    (aggregate_contributors [] 365 [] [c8PR]).map
      (fun L => ((getEntry L "a").map (fun e => e.comments_made),
                 getEntry L "b", getEntry L "c")) =
      Except.ok (some 3, none, none) ∧
    human_participants c8PR.participants = ["a", "b", "c"] :=
  ⟨rfl, by decide⟩

/-- C8 (amended): for a record with at least one comment and at least one
human participant, each human participant *already present in the ledger*
gains `max 1 (comments / number of humans)` comments per occurrence in the
participant list — never fewer than one — while participants without a ledger
entry remain absent and receive nothing. -/
theorem C8_comment_share (L : Ledger) (cc : Nat) (parts : List String)
    (hcc : 0 < cc) (hh : human_participants parts ≠ []) :
    1 ≤ max 1 (cc / (human_participants parts).length) ∧
    (∀ p e, getEntry L p = some e →
      getEntry (distributeComments L cc parts) p =
        some { e with comments_made :=
          (e.comments_made +
            max 1 (cc / (human_participants parts).length) *
              ((human_participants parts).count p)) }) ∧
    (∀ p, getEntry L p = none →
      getEntry (distributeComments L cc parts) p = none) :=
  ⟨le_max_left 1 _,
   fun p e he => getEntry_distributeComments_present L cc parts p e hcc hh he,
   fun p hp => getEntry_distributeComments_absent L cc parts p hp⟩

/-- Witness for C8: the present participant "a" gains exactly its share. -/
theorem C8_witness :
    getEntry (distributeComments [("a", blankEntry "a")] 9 ["a", "b", "c"]) "a" =
      some { blankEntry "a" with comments_made :=
        ((blankEntry "a").comments_made +
          max 1 (9 / (human_participants ["a", "b", "c"]).length) *
            ((human_participants ["a", "b", "c"]).count "a")) } :=
  (C8_comment_share [("a", blankEntry "a")] 9 ["a", "b", "c"]
    (by decide) (by decide)).2.1 "a" (blankEntry "a") rfl
